import Mathlib

/-!
# Verification of the `fer` telco quota engine (`src/src/lib.rs`)

Shallow embedding of the accounting core: the data model (`QuotaBucket`,
`UserAccount`, `UsageRecord`, `TelcoError`), the pure deduction engine
`UserAccount::consume_data`, the simulator operations `simulate_usage`,
`parse_and_buy_topping`, `unlock_with_biometrics`, `set_update_handler`,
`get_account_info`, `get_historical_usage`, and the notification fan-out
`notify_and_persist`.

Machine integers (`u64`, `u32`) are embedded as `Nat`.  The only subtraction
in the accounting path is capped by `min` in the source, so `Nat` subtraction
agrees exactly with the `u64` subtraction there.  In the command parser the
source can panic — `parse::<u64>().unwrap()` on a capture the parse rejects,
and the byte multiplication when it exceeds `u64` under the default
profile's overflow checks — and those panics are modelled explicitly as a
distinct `Outcome.panicked` result.  The regex runs in the crate's Unicode
mode, so its character classes (`\s` = `White_Space`, `\d` = `Nd`) and the
`(?i)` simple case folding are embedded from the Unicode tables.
`SystemTime::now()` is passed explicitly as a `now` parameter.
-/

namespace Telco

/-- Error enum `TelcoError` from `src/src/lib.rs`. -/
inductive TelcoError where
  | InsufficientBalance
  | AccountInactive
  | Locked
  | InvalidCommand (msg : String)
  | DatabaseError (msg : String)
  | InternalError
  deriving DecidableEq, Repr

/-- Enum `QuotaType` from `src/src/lib.rs`. -/
inductive QuotaType where
  | General
  | Social
  | Video
  deriving DecidableEq, Repr

/-- Record `QuotaBucket` from `src/src/lib.rs`. -/
structure QuotaBucket where
  name : String
  remaining_bytes : Nat
  category : QuotaType
  expiry : Nat
  deriving DecidableEq, Repr

/-- Record `UserAccount` from `src/src/lib.rs`. -/
structure UserAccount where
  id : String
  is_active : Bool
  biometric_locked : Bool
  buckets : List QuotaBucket
  last_traffic_bytes : Nat
  data_balance_bytes : Nat
  current_latency_ms : Nat
  deriving DecidableEq, Repr

/-- Record `UsageRecord` from `src/src/lib.rs`. -/
structure UsageRecord where
  timestamp : Nat
  amount : Nat
  category : String
  deriving DecidableEq, Repr

/-- `buckets.iter().map(|b| b.remaining_bytes).sum()` — the sum the source
recomputes after every mutation (lib.rs lines 277 and 369). -/
def bucketSum (bs : List QuotaBucket) : Nat :=
  (bs.map (fun b => b.remaining_bytes)).sum

/-- One pass of the deduction loop in `UserAccount::consume_data`
(lib.rs lines 360-365): walk the buckets in storage order; for each bucket
whose category matches `p` and whose expiry is strictly in the future,
deduct `min(bucket.remaining_bytes, remaining)`.  The source's
`if remaining == 0 { break; }` is an early exit that deducts nothing
further (every later `min` is `0`), so the recursion without the break is
extensionally the same pass. -/
def drain (now : Nat) (p : QuotaType) : List QuotaBucket → Nat → List QuotaBucket × Nat
  | [], remaining => ([], remaining)
  | bucket :: rest, remaining =>
    if bucket.category = p ∧ now < bucket.expiry then
      let deduction := min bucket.remaining_bytes remaining
      ({ bucket with remaining_bytes := bucket.remaining_bytes - deduction } ::
          (drain now p rest (remaining - deduction)).1,
        (drain now p rest (remaining - deduction)).2)
    else
      (bucket :: (drain now p rest remaining).1, (drain now p rest remaining).2)

/-- The outer loop of `UserAccount::consume_data` over the priority list
(lib.rs lines 359-367).  The outer `if remaining == 0 { break; }` is again
a no-op early exit: a pass started with `remaining = 0` deducts nothing. -/
def drainAll (now : Nat) : List QuotaType → List QuotaBucket → Nat → List QuotaBucket × Nat
  | [], buckets, remaining => (buckets, remaining)
  | p :: ps, buckets, remaining =>
    drainAll now ps (drain now p buckets remaining).1 (drain now p buckets remaining).2

/-- The `priorities` list of `UserAccount::consume_data` (lib.rs line 358):
`[General]` for a General request, `[category, General]` otherwise. -/
def priorities (category : QuotaType) : List QuotaType :=
  if category = QuotaType.General then [QuotaType.General]
  else [category, QuotaType.General]

/-- `UserAccount::consume_data` (lib.rs lines 353-375): reject inactive
accounts, drain `[category]` or `[category, General]` on a scratch copy of
the buckets, fail with `InsufficientBalance` when the needed amount is
still positive, otherwise return the account with the new buckets and a
recomputed `data_balance_bytes`. -/
def consume_data (acct : UserAccount) (amount : Nat) (category : QuotaType) (now : Nat) :
    Except TelcoError UserAccount :=
  if acct.is_active = false then .error .AccountInactive
  else
    let res := drainAll now (priorities category) acct.buckets amount
    if 0 < res.2 then .error .InsufficientBalance
    else .ok { acct with buckets := res.1, data_balance_bytes := bucketSum res.1 }

/-- `TelcoSimulator::simulate_usage` (lib.rs lines 203-216) as a step on the
committed state behind the `RwLock`: when locked it returns `Locked` before
touching the state; on a `consume_data` error the `?` propagates before the
`*lock = new_state` assignment, so the committed state is the old one; only
on success is the new state committed. -/
def simulate_usage_step (acct : UserAccount) (bytes : Nat) (category : QuotaType) (now : Nat) :
    UserAccount × Option TelcoError :=
  if acct.biometric_locked then (acct, some .Locked)
  else
    match consume_data acct bytes category now with
    | .ok new_state => (new_state, none)
    | .error e => (acct, some e)

/-! ## The command parser for `parse_and_buy_topping`

`TelcoSimulator::parse_and_buy_topping` (lib.rs lines 261-285) matches the
regex `(?i)(YouTube|Social|General)\s+(\d+)\s*(GB|MB)` anywhere in the
command via `Regex::captures`.  The Rust `regex` crate runs in Unicode
mode: `\s` is the Unicode `White_Space` class, `\d` is the Unicode decimal
digit class `Nd`, and `(?i)` compares by Unicode *simple case folding*.
The crate uses leftmost-first semantics; since the three keyword
alternatives start with letters in disjoint fold classes and the greedy
`\s+`/`\d+`/`\s*` runs are followed by tokens that can never extend them
(no codepoint fold-matching `g`/`m` is whitespace or a digit), the search
is the deterministic scan embedded below: try a full match at each start
position from the left. -/

/-- The regex class `\s` in Unicode mode: the `White_Space` property
(U+0009-000D, space, NEL, NBSP, Ogham space, U+2000-200A, line/paragraph
separator, narrow NBSP, medium mathematical space, ideographic space). -/
def isSpaceChar (c : Char) : Bool :=
  let n := c.toNat
  (0x9 ≤ n && n ≤ 0xD) || n == 0x20 || n == 0x85 || n == 0xA0 || n == 0x1680 ||
  (0x2000 ≤ n && n ≤ 0x200A) || n == 0x2028 || n == 0x2029 || n == 0x202F ||
  n == 0x205F || n == 0x3000

/-- The codepoint ranges of Unicode general category `Nd` (decimal digit,
Unicode 15.0) — the regex class `\d` in Unicode mode. -/
def ndRanges : List (Nat × Nat) :=
  [(0x30, 0x39), (0x660, 0x669), (0x6F0, 0x6F9), (0x7C0, 0x7C9),
   (0x966, 0x96F), (0x9E6, 0x9EF), (0xA66, 0xA6F), (0xAE6, 0xAEF),
   (0xB66, 0xB6F), (0xBE6, 0xBEF), (0xC66, 0xC6F), (0xCE6, 0xCEF),
   (0xD66, 0xD6F), (0xDE6, 0xDEF), (0xE50, 0xE59), (0xED0, 0xED9),
   (0xF20, 0xF29), (0x1040, 0x1049), (0x1090, 0x1099), (0x17E0, 0x17E9),
   (0x1810, 0x1819), (0x1946, 0x194F), (0x19D0, 0x19D9), (0x1A80, 0x1A89),
   (0x1A90, 0x1A99), (0x1B50, 0x1B59), (0x1BB0, 0x1BB9), (0x1C40, 0x1C49),
   (0x1C50, 0x1C59), (0xA620, 0xA629), (0xA8D0, 0xA8D9), (0xA900, 0xA909),
   (0xA9D0, 0xA9D9), (0xA9F0, 0xA9F9), (0xAA50, 0xAA59), (0xABF0, 0xABF9),
   (0xFF10, 0xFF19), (0x104A0, 0x104A9), (0x10D30, 0x10D39),
   (0x11066, 0x1106F), (0x110F0, 0x110F9), (0x11136, 0x1113F),
   (0x111D0, 0x111D9), (0x112F0, 0x112F9), (0x11450, 0x11459),
   (0x114D0, 0x114D9), (0x11650, 0x11659), (0x116C0, 0x116C9),
   (0x11730, 0x11739), (0x118E0, 0x118E9), (0x11950, 0x11959),
   (0x11C50, 0x11C59), (0x11D50, 0x11D59), (0x11DA0, 0x11DA9),
   (0x11F50, 0x11F59), (0x16A60, 0x16A69), (0x16AC0, 0x16AC9),
   (0x16B50, 0x16B59), (0x1D7CE, 0x1D7FF), (0x1E140, 0x1E149),
   (0x1E2F0, 0x1E2F9), (0x1E4F0, 0x1E4F9), (0x1E950, 0x1E959),
   (0x1FBF0, 0x1FBF9)]

/-- The regex class `\d` in Unicode mode: membership in `Nd`. -/
def isDigitChar (c : Char) : Bool :=
  ndRanges.any (fun r => r.1 ≤ c.toNat && c.toNat ≤ r.2)

/-- `(?i)` matching of an input character `c` against a lowercase ASCII
pattern letter `p`: equality of Unicode simple case foldings.  The only
codepoints whose simple case folding lands in ASCII `a`-`z` beyond the
ASCII letters themselves are U+017F (long s ſ, folds to `s`) and U+212A
(Kelvin sign, folds to `k`), so for the pattern's letters this test is the
full fold-class membership. -/
def foldEqPattern (p c : Char) : Bool :=
  c == p || c.toLower == p || (p == 's' && c.toNat == 0x17F) ||
    (p == 'k' && c.toNat == 0x212A)

/-- Match the pattern literal `ks` (given lowercase) at the head of `s`
under `(?i)` simple case folding; return the matched input characters (the
raw capture, as `Regex::captures` yields it) and the rest. -/
def matchFold : List Char → List Char → Option (List Char × List Char)
  | [], s => some ([], s)
  | _ :: _, [] => none
  | k :: ks, c :: cs =>
    if foldEqPattern k c then
      match matchFold ks cs with
      | some r => some (c :: r.1, r.2)
      | none => none
    else none

/-- Group 1 of the regex: the three alternatives in order, returning the
raw matched characters. -/
def matchKeyword (s : List Char) : Option (List Char × List Char) :=
  match matchFold "youtube".data s with
  | some r => some r
  | none =>
    match matchFold "social".data s with
    | some r => some r
    | none =>
      match matchFold "general".data s with
      | some r => some r
      | none => none

/-- Group 3 of the regex, already uppercased as the source does with
`caps.get(3).unwrap().as_str().to_uppercase()` — sound here because no
codepoint outside ASCII fold-matches `g`, `b` or `m`, so the raw capture
is ASCII and uppercases to exactly `"GB"` or `"MB"`. -/
def matchUnit (s : List Char) : Option String :=
  match matchFold "gb".data s with
  | some _ => some "GB"
  | none =>
    match matchFold "mb".data s with
    | some _ => some "MB"
    | none => none

/-- Attempt the whole regex at the start of `s`: keyword, `\s+`, `\d+`,
`\s*`, unit.  Returns the raw group-1 capture, the raw digit capture of
group 2, and the uppercased unit. -/
def matchAt (s : List Char) : Option (List Char × List Char × String) :=
  match matchKeyword s with
  | none => none
  | some (kw, r1) =>
    let sp := r1.takeWhile isSpaceChar
    let r2 := r1.dropWhile isSpaceChar
    if sp.length = 0 then none
    else
      let ds := r2.takeWhile isDigitChar
      let r3 := r2.dropWhile isDigitChar
      if ds.length = 0 then none
      else
        let r4 := r3.dropWhile isSpaceChar
        match matchUnit r4 with
        | none => none
        | some unit => some (kw, ds, unit)

/-- `Regex::captures`: the match at the leftmost feasible start position. -/
def findMatch : List Char → Option (List Char × List Char × String)
  | [] => none
  | c :: cs =>
    match matchAt (c :: cs) with
    | some r => some r
    | none => findMatch cs

/-- Decimal value of an ASCII digit run (the semantics of a successful
`str::parse::<u64>`). -/
def digitsToNat (ds : List Char) : Nat :=
  ds.foldl (fun n c => n * 10 + (c.toNat - '0'.toNat)) 0

/-- `str::parse::<u64>` on the `(\d+)` capture (lib.rs line 265): succeeds
only on ASCII digit runs whose value fits in a `u64`.  On any other
capture — a non-ASCII `Nd` digit that the regex accepted, or a value above
`u64::MAX` — it returns `Err`, and the source's `.unwrap()` panics. -/
def parseU64 (ds : List Char) : Option Nat :=
  if ds.all (fun c => '0' ≤ c && c ≤ '9') && digitsToNat ds < 2 ^ 64 then
    some (digitsToNat ds)
  else none

/-- Rust control-flow outcome of a call that may panic: `.panicked` models
a process panic (an `unwrap` of `Err`, or an arithmetic overflow under the
default profile's overflow checks); `.returns` carries the normal result. -/
inductive Outcome (α : Type) where
  | panicked
  | returns (a : α)
  deriving DecidableEq, Repr

/-- `TelcoSimulator::parse_and_buy_topping` (lib.rs lines 261-285) acting on
the account state behind the lock: on a regex match, parse the amount
(`.unwrap()` panics on captures `parse::<u64>` rejects), compute the byte
count (`amount * 1024 * 1024 * 1024` can exceed `u64`; with the default
profile's overflow checks that panics — a release build would wrap
instead; no theorem below depends on the difference), push a new bucket
(30-day expiry, name `"{amount} {unit} Topping"`) and recompute
`data_balance_bytes`; without a regex match return `InvalidCommand` and
touch nothing.  Group 1 is lowercased as `to_lowercase()` (line 264) does;
on the characters reachable in group 1 — ASCII letters and U+017F ſ, which
is already lowercase and stays itself — that coincides with `Char.toLower`.
A capture such as `"ſocial"` therefore misses the `"social"` arm and falls
to the `_ => General` arm, exactly as in the source's match (line 268). -/
def parse_and_buy_topping (acct : UserAccount) (command : String) (now : Nat) :
    Outcome (Except TelcoError UserAccount) :=
  match findMatch command.data with
  | some (kwChars, ds, unit) =>
    let cat_str := String.mk (kwChars.map Char.toLower)
    match parseU64 ds with
    | none => .panicked
    | some amount =>
      let bytes := if unit = "GB" then amount * 1024 * 1024 * 1024 else amount * 1024 * 1024
      if bytes < 2 ^ 64 then
        let category :=
          if cat_str = "youtube" then QuotaType.Video
          else if cat_str = "social" then QuotaType.Social
          else QuotaType.General
        let topping : QuotaBucket :=
          { name := toString amount ++ " " ++ unit ++ " Topping"
            remaining_bytes := bytes
            category := category
            expiry := now + 86400 * 30 }
        let newBuckets := acct.buckets ++ [topping]
        .returns (.ok
          { acct with buckets := newBuckets, data_balance_bytes := bucketSum newBuckets })
      else .panicked
  | none => .returns (.error (.InvalidCommand "Try 'YouTube 2GB'"))

/-- The account-independent part of `parse_and_buy_topping`: what the
command alone determines — a panic, no match, or the topping bucket that
gets pushed.  `parse_decomp` below proves `parse_and_buy_topping` is this
plus the account update. -/
def parsedTopping (command : String) (now : Nat) : Outcome (Option QuotaBucket) :=
  match findMatch command.data with
  | some (kwChars, ds, unit) =>
    let cat_str := String.mk (kwChars.map Char.toLower)
    match parseU64 ds with
    | none => .panicked
    | some amount =>
      let bytes := if unit = "GB" then amount * 1024 * 1024 * 1024 else amount * 1024 * 1024
      if bytes < 2 ^ 64 then
        .returns (some
          { name := toString amount ++ " " ++ unit ++ " Topping"
            remaining_bytes := bytes
            category :=
              if cat_str = "youtube" then QuotaType.Video
              else if cat_str = "social" then QuotaType.Social
              else QuotaType.General
            expiry := now + 86400 * 30 })
      else .panicked
  | none => .returns none

/-! ## Simulator operations: unlock, observer, snapshot, history -/

/-- Observable side effects of `TelcoSimulator::notify_and_persist`
(lib.rs lines 343-349): one `on_account_updated` call when a handler is
registered, and one `try_send` onto the persistence queue. -/
inductive Event where
  | notified (account : UserAccount)
  | persistEnqueued (account : UserAccount)
  deriving DecidableEq, Repr

/-- `TelcoSimulator::notify_and_persist` (lib.rs lines 343-349): the handler
(if any) is called exactly once with the snapshot, then exactly one message
is enqueued (a full queue drops it on the queue side; the enqueue attempt
itself is unconditional and non-blocking). -/
def notify_and_persist (handlerRegistered : Bool) (account : UserAccount) : List Event :=
  (if handlerRegistered then [Event.notified account] else []) ++ [Event.persistEnqueued account]

/-- `TelcoSimulator::unlock_with_biometrics` (lib.rs lines 174-180): clear
`biometric_locked` unconditionally, then notify and persist the new
snapshot.  Returns the committed state and the emitted events. -/
def unlock_with_biometrics (acct : UserAccount) (handlerRegistered : Bool) :
    UserAccount × List Event :=
  let new_state := { acct with biometric_locked := false }
  (new_state, notify_and_persist handlerRegistered new_state)

/-- `TelcoSimulator::set_update_handler` (lib.rs lines 167-172): store the
handler, read the current state, and immediately deliver the snapshot to
the just-registered handler — with no check of `biometric_locked`.
Returns the new handler-registered flag and the emitted events. -/
def set_update_handler (acct : UserAccount) : Bool × List Event :=
  (true, [Event.notified acct])

/-- `TelcoSimulator::get_account_info` (lib.rs lines 187-191): fail with
`Locked` when `biometric_locked`, otherwise return the snapshot. -/
def get_account_info (acct : UserAccount) : Except TelcoError UserAccount :=
  if acct.biometric_locked then .error .Locked else .ok acct

/-- Descending-timestamp order used by the history query's
`ORDER BY timestamp DESC`. -/
def tsDesc (a b : UsageRecord) : Prop := b.timestamp ≤ a.timestamp

instance : DecidableRel tsDesc := fun a b => inferInstanceAs (Decidable (b.timestamp ≤ a.timestamp))

instance : IsTotal UsageRecord tsDesc := ⟨fun a b => Nat.le_total b.timestamp a.timestamp⟩

instance : IsTrans UsageRecord tsDesc := ⟨fun _ _ _ h1 h2 => Nat.le_trans h2 h1⟩

/-- `TelcoSimulator::get_historical_usage` (lib.rs lines 286-310).  The
sqlite build runs `SELECT timestamp, amount, category FROM usage_history
ORDER BY timestamp DESC LIMIT ?1`; the table contents are modelled as the
list `history` of rows and the query as a descending sort by timestamp
followed by `take limit`.  The build without the sqlite backend
(`#[cfg(not(feature = "sqlite"))]`) returns `Ok(vec![])`, modelled as
`backend = none`. -/
def get_historical_usage (backend : Option (List UsageRecord)) (limit : Nat) :
    Except TelcoError (List UsageRecord) :=
  match backend with
  | none => .ok []
  | some history => .ok ((history.insertionSort tsDesc).take limit)

/-! ## Derived quantities and concrete fixtures -/

/-- The sum of `remaining_bytes` over the buckets a pass for `p` at time
`now` may touch. -/
def eligSum (now : Nat) (p : QuotaType) (bs : List QuotaBucket) : Nat :=
  bucketSum (bs.filter (fun b => decide (b.category = p ∧ now < b.expiry)))

/-- The unexpired capacity a request for `category` at time `now` may draw
on: buckets of that category or of the `General` fallback pool whose
expiry is still in the future. -/
def eligibleCapacity (category : QuotaType) (now : Nat) (bs : List QuotaBucket) : Nat :=
  bucketSum (bs.filter (fun b =>
    decide ((b.category = category ∨ b.category = QuotaType.General) ∧ now < b.expiry)))

/-- A fresh account as built by `TelcoSimulator::new` without stored state
(lib.rs lines 104-126). -/
def freshAccount (id : String) : UserAccount :=
  { id := id
    is_active := true
    biometric_locked := false
    buckets := []
    last_traffic_bytes := 0
    data_balance_bytes := 0
    current_latency_ms := 46 }

/-- Fixture: a live General bucket holding 10 bytes. -/
def bktG : QuotaBucket :=
  { name := "g", remaining_bytes := 10, category := QuotaType.General, expiry := 1000 }

/-- Fixture: an active, unlocked account with one General bucket. -/
def acctA : UserAccount :=
  { freshAccount "u-a" with
    buckets := [{ name := "g", remaining_bytes := 10, category := QuotaType.General,
                  expiry := 1000 }]
    data_balance_bytes := 10 }

/-- Fixture: a biometric-locked account. -/
def acctL : UserAccount := { acctA with biometric_locked := true }

/-- Fixture: an inactive account. -/
def acctI : UserAccount := { acctA with is_active := false }

/-- Fixture: an account whose only Video bucket is expired at `now = 100`
while still holding 5 bytes. -/
def acctE : UserAccount :=
  { freshAccount "u-e" with
    buckets := [{ name := "v", remaining_bytes := 5, category := QuotaType.Video,
                  expiry := 50 }]
    data_balance_bytes := 5 }

/-- Fixture: an expired Video bucket next to a live General bucket. -/
def acctM : UserAccount :=
  { freshAccount "u-m" with
    buckets := [{ name := "v", remaining_bytes := 5, category := QuotaType.Video,
                  expiry := 50 },
                { name := "g", remaining_bytes := 10, category := QuotaType.General,
                  expiry := 1000 }]
    data_balance_bytes := 15 }

/-- Fixture: one Video and one General bucket, both live at `now = 100`. -/
def acctP : UserAccount :=
  { freshAccount "u-p" with
    buckets := [{ name := "v", remaining_bytes := 10, category := QuotaType.Video,
                  expiry := 1000 },
                { name := "g", remaining_bytes := 10, category := QuotaType.General,
                  expiry := 1000 }]
    data_balance_bytes := 20 }

/-! ## Lemmas about the deduction pass `drain` -/

theorem bucketSum_nil : bucketSum [] = 0 := rfl

theorem bucketSum_cons (b : QuotaBucket) (l : List QuotaBucket) :
    bucketSum (b :: l) = b.remaining_bytes + bucketSum l := by
  simp [bucketSum]

theorem bucketSum_append (l1 l2 : List QuotaBucket) :
    bucketSum (l1 ++ l2) = bucketSum l1 + bucketSum l2 := by
  simp [bucketSum]

/-- A pass never deducts more than the needed amount. -/
theorem drain_snd_le (now : Nat) (p : QuotaType) :
    ∀ (bs : List QuotaBucket) (r : Nat), (drain now p bs r).2 ≤ r := by
  intro bs
  induction bs with
  | nil => intro r; simp [drain]
  | cons b rest ih =>
    intro r
    by_cases h : b.category = p ∧ now < b.expiry
    · simp only [drain, if_pos h]
      exact le_trans (ih _) (Nat.sub_le _ _)
    · simp only [drain, if_neg h]
      exact ih r

/-- Pointwise shape of a pass: names, categories and expiries are kept,
remaining bytes never grow, and a bucket that does not match the pass's
category-and-expiry filter is returned untouched. -/
theorem drain_forall2 (now : Nat) (p : QuotaType) :
    ∀ (bs : List QuotaBucket) (r : Nat),
      List.Forall₂ (fun b b' =>
        b'.name = b.name ∧ b'.category = b.category ∧ b'.expiry = b.expiry ∧
        b'.remaining_bytes ≤ b.remaining_bytes ∧
        (¬(b.category = p ∧ now < b.expiry) → b' = b)) bs (drain now p bs r).1 := by
  intro bs
  induction bs with
  | nil => intro r; simp [drain]
  | cons b rest ih =>
    intro r
    by_cases h : b.category = p ∧ now < b.expiry
    · simp only [drain, if_pos h]
      refine List.Forall₂.cons ?_ (ih _)
      refine ⟨rfl, rfl, rfl, Nat.sub_le _ _, fun hc => absurd h hc⟩
    · simp only [drain, if_neg h]
      exact List.Forall₂.cons ⟨rfl, rfl, rfl, le_refl _, fun _ => rfl⟩ (ih r)

/-- A pass with nothing left to deduct changes no bucket. -/
theorem drain_zero (now : Nat) (p : QuotaType) :
    ∀ bs : List QuotaBucket, (drain now p bs 0).1 = bs ∧ (drain now p bs 0).2 = 0 := by
  intro bs
  induction bs with
  | nil => simp [drain]
  | cons b rest ih =>
    by_cases h : b.category = p ∧ now < b.expiry
    · simp only [drain, if_pos h, Nat.min_zero, Nat.sub_zero]
      exact ⟨by rw [ih.1], ih.2⟩
    · simp only [drain, if_neg h]
      exact ⟨by rw [ih.1], ih.2⟩

/-- Conservation: what a pass removes from the buckets is exactly what it
removes from the needed amount. -/
theorem drain_sum (now : Nat) (p : QuotaType) :
    ∀ (bs : List QuotaBucket) (r : Nat),
      bucketSum (drain now p bs r).1 + (r - (drain now p bs r).2) = bucketSum bs + 0 := by
  intro bs
  induction bs with
  | nil => intro r; simp [drain]
  | cons b rest ih =>
    intro r
    by_cases h : b.category = p ∧ now < b.expiry
    · simp only [drain, if_pos h, bucketSum_cons]
      have h1 := ih (r - min b.remaining_bytes r)
      have h2 := drain_snd_le now p rest (r - min b.remaining_bytes r)
      omega
    · simp only [drain, if_neg h, bucketSum_cons]
      have h1 := ih r
      have h2 := drain_snd_le now p rest r
      omega

/-- If the needed amount is still positive after a pass, every bucket the
pass was allowed to touch has been drained to exactly zero. -/
theorem drain_exhaust (now : Nat) (p : QuotaType) :
    ∀ (bs : List QuotaBucket) (r : Nat), 0 < (drain now p bs r).2 →
      List.Forall₂ (fun b b' => b.category = p → now < b.expiry → b'.remaining_bytes = 0)
        bs (drain now p bs r).1 := by
  intro bs
  induction bs with
  | nil => intro r _; simp [drain]
  | cons b rest ih =>
    intro r hpos
    by_cases h : b.category = p ∧ now < b.expiry
    · simp only [drain, if_pos h] at hpos ⊢
      have hle := drain_snd_le now p rest (r - min b.remaining_bytes r)
      have hmin : min b.remaining_bytes r = b.remaining_bytes := by omega
      refine List.Forall₂.cons ?_ (ih _ hpos)
      intro _ _
      simp [hmin]
    · simp only [drain, if_neg h] at hpos ⊢
      refine List.Forall₂.cons ?_ (ih r hpos)
      intro hcat hexp
      exact absurd ⟨hcat, hexp⟩ h

/-- Closed form of the needed amount left after one pass. -/
theorem drain_spec (now : Nat) (p : QuotaType) :
    ∀ (bs : List QuotaBucket) (r : Nat),
      (drain now p bs r).2 = r - min r (eligSum now p bs) := by
  intro bs
  induction bs with
  | nil => intro r; simp [drain, eligSum, bucketSum]
  | cons b rest ih =>
    intro r
    by_cases h : b.category = p ∧ now < b.expiry
    · simp only [drain, if_pos h]
      have h1 := ih (r - min b.remaining_bytes r)
      have h2 : eligSum now p (b :: rest) = b.remaining_bytes + eligSum now p rest := by
        simp [eligSum, List.filter_cons, h, bucketSum_cons]
      rw [h1, h2]
      omega
    · simp only [drain, if_neg h]
      have h2 : eligSum now p (b :: rest) = eligSum now p rest := by
        simp [eligSum, List.filter_cons, h]
      rw [ih r, h2]

/-- Buckets of a different category keep their eligible capacity across a
pass for `p`. -/
theorem eligSum_drain_other (now : Nat) (p q : QuotaType) (hne : q ≠ p) :
    ∀ (bs : List QuotaBucket) (r : Nat),
      eligSum now q (drain now p bs r).1 = eligSum now q bs := by
  intro bs
  induction bs with
  | nil => intro r; simp [drain]
  | cons b rest ih =>
    intro r
    simp only [eligSum] at ih ⊢
    by_cases h : b.category = p ∧ now < b.expiry
    · simp only [drain, if_pos h]
      have hq : ¬(b.category = q ∧ now < b.expiry) := by
        rintro ⟨hq1, -⟩
        exact hne (by rw [← hq1, h.1])
      have hq' : ¬(({ b with remaining_bytes := b.remaining_bytes - min b.remaining_bytes r } :
          QuotaBucket).category = q ∧
          now < ({ b with remaining_bytes := b.remaining_bytes - min b.remaining_bytes r } :
          QuotaBucket).expiry) := hq
      simp only [List.filter_cons, decide_eq_true_eq]
      rw [if_neg hq', if_neg hq]
      exact ih _
    · simp only [drain, if_neg h]
      simp only [List.filter_cons, decide_eq_true_eq]
      by_cases hq : b.category = q ∧ now < b.expiry
      · rw [if_pos hq, if_pos hq, bucketSum_cons, bucketSum_cons, ih r]
      · rw [if_neg hq, if_neg hq]
        exact ih r

/-! ## Lemmas about `drainAll` and `consume_data` -/

/-- Compose two pointwise relations along the two passes. -/
theorem forall2_comp {R S T : QuotaBucket → QuotaBucket → Prop}
    (h : ∀ a b c, R a b → S b c → T a c) :
    ∀ {l1 l2 l3 : List QuotaBucket},
      List.Forall₂ R l1 l2 → List.Forall₂ S l2 l3 → List.Forall₂ T l1 l3 := by
  intro l1 l2 l3 h12 h23
  induction h12 generalizing l3 with
  | nil => cases h23; exact List.Forall₂.nil
  | cons hab htl ih =>
    cases h23 with
    | cons hbc htl' => exact List.Forall₂.cons (h _ _ _ hab hbc) (ih htl')

theorem drainAll_snd_le (now : Nat) :
    ∀ (ps : List QuotaType) (bs : List QuotaBucket) (r : Nat),
      (drainAll now ps bs r).2 ≤ r := by
  intro ps
  induction ps with
  | nil => intro bs r; simp [drainAll]
  | cons p ps ih =>
    intro bs r
    simp only [drainAll]
    exact le_trans (ih _ _) (drain_snd_le now p bs r)

theorem drainAll_sum (now : Nat) :
    ∀ (ps : List QuotaType) (bs : List QuotaBucket) (r : Nat),
      bucketSum (drainAll now ps bs r).1 + (r - (drainAll now ps bs r).2) = bucketSum bs := by
  intro ps
  induction ps with
  | nil => intro bs r; simp [drainAll]
  | cons p ps ih =>
    intro bs r
    simp only [drainAll]
    have h1 := ih (drain now p bs r).1 (drain now p bs r).2
    have h2 := drain_sum now p bs r
    have h3 := drain_snd_le now p bs r
    have h4 := drainAll_snd_le now ps (drain now p bs r).1 (drain now p bs r).2
    omega

/-- Pointwise shape across all passes of the priority list. -/
theorem drainAll_forall2 (now : Nat) :
    ∀ (ps : List QuotaType) (bs : List QuotaBucket) (r : Nat),
      List.Forall₂ (fun b b' =>
        b'.name = b.name ∧ b'.category = b.category ∧ b'.expiry = b.expiry ∧
        b'.remaining_bytes ≤ b.remaining_bytes ∧
        (¬(b.category ∈ ps ∧ now < b.expiry) → b' = b)) bs (drainAll now ps bs r).1 := by
  intro ps
  induction ps with
  | nil =>
    intro bs r
    simp only [drainAll]
    induction bs with
    | nil => exact List.Forall₂.nil
    | cons b rest ih => exact List.Forall₂.cons ⟨rfl, rfl, rfl, le_refl _, fun _ => rfl⟩ ih
  | cons p ps ih =>
    intro bs r
    simp only [drainAll]
    refine forall2_comp ?_ (drain_forall2 now p bs r)
      (ih (drain now p bs r).1 (drain now p bs r).2)
    rintro a b c ⟨hn1, hc1, he1, hr1, hu1⟩ ⟨hn2, hc2, he2, hr2, hu2⟩
    refine ⟨hn2.trans hn1, hc2.trans hc1, he2.trans he1, le_trans hr2 hr1, ?_⟩
    intro hnot
    have hb : b = a := by
      apply hu1
      rintro ⟨hcat, hexp⟩
      refine hnot ⟨?_, hexp⟩
      rw [hcat]
      exact List.mem_cons_self _ _
    have hc : c = b := by
      apply hu2
      rintro ⟨hcat, hexp⟩
      subst hb
      exact hnot ⟨List.mem_cons_of_mem _ hcat, hexp⟩
    rw [hc, hb]

/-- Characterization of a successful `consume_data`. -/
theorem consume_data_ok_iff (acct : UserAccount) (amount : Nat) (category : QuotaType)
    (now : Nat) (new : UserAccount) :
    consume_data acct amount category now = .ok new ↔
      acct.is_active = true ∧
      (drainAll now (priorities category) acct.buckets amount).2 = 0 ∧
      new = { acct with
        buckets := (drainAll now (priorities category) acct.buckets amount).1,
        data_balance_bytes := bucketSum (drainAll now (priorities category) acct.buckets amount).1 } := by
  unfold consume_data
  constructor
  · intro h
    by_cases ha : acct.is_active = false
    · rw [if_pos ha] at h; exact absurd h (by simp)
    · rw [if_neg ha] at h
      simp only at h
      by_cases hr : 0 < (drainAll now (priorities category) acct.buckets amount).2
      · rw [if_pos hr] at h; exact absurd h (by simp)
      · rw [if_neg hr] at h
        simp only [Except.ok.injEq] at h
        refine ⟨by simpa using ha, by omega, h.symm⟩
  · rintro ⟨ha, hr, hnew⟩
    rw [if_neg (by simp [ha]), if_neg (by omega)]
    rw [hnew]

/-- A failed `consume_data` reports only the two accounting errors. -/
theorem consume_data_err (acct : UserAccount) (amount : Nat) (category : QuotaType)
    (now : Nat) (e : TelcoError) (h : consume_data acct amount category now = .error e) :
    e = TelcoError.AccountInactive ∨ e = TelcoError.InsufficientBalance := by
  unfold consume_data at h
  by_cases ha : acct.is_active = false
  · rw [if_pos ha] at h
    simp only [Except.error.injEq] at h
    exact Or.inl h.symm
  · rw [if_neg ha] at h
    simp only at h
    by_cases hr : 0 < (drainAll now (priorities category) acct.buckets amount).2
    · rw [if_pos hr] at h
      simp only [Except.error.injEq] at h
      exact Or.inr h.symm
    · rw [if_neg hr] at h
      exact absurd h (by simp)

/-- Conjoin two pointwise relations over the same pair of lists. -/
theorem forall2_and {R S : QuotaBucket → QuotaBucket → Prop} :
    ∀ {l1 l2 : List QuotaBucket}, List.Forall₂ R l1 l2 → List.Forall₂ S l1 l2 →
      List.Forall₂ (fun a b => R a b ∧ S a b) l1 l2 := by
  intro l1 l2 h12
  induction h12 with
  | nil => intro _; exact List.Forall₂.nil
  | cons hab htl ih =>
    intro hs
    cases hs with
    | cons hab' htl' => exact List.Forall₂.cons ⟨hab, hab'⟩ (ih htl')

/-- For a `General` request the request capacity is the eligible `General`
capacity. -/
theorem eligibleCapacity_general (now : Nat) (bs : List QuotaBucket) :
    eligibleCapacity QuotaType.General now bs = eligSum now QuotaType.General bs := by
  unfold eligibleCapacity eligSum
  congr 1
  apply List.filter_congr
  intro b _
  simp [or_self]

/-- For a non-`General` request the request capacity splits into the
category-specific capacity plus the `General` fallback capacity. -/
theorem eligibleCapacity_split (category : QuotaType) (now : Nat)
    (hne : category ≠ QuotaType.General) :
    ∀ bs : List QuotaBucket,
      eligibleCapacity category now bs =
        eligSum now category bs + eligSum now QuotaType.General bs := by
  intro bs
  induction bs with
  | nil => simp [eligibleCapacity, eligSum, bucketSum]
  | cons b rest ih =>
    simp only [eligibleCapacity, eligSum, List.filter_cons, decide_eq_true_eq] at ih ⊢
    by_cases hc : b.category = category
    · have hng : ¬(b.category = QuotaType.General ∧ now < b.expiry) := by
        rintro ⟨hg, -⟩
        exact hne (by rw [← hc, hg])
      by_cases he : now < b.expiry
      · rw [if_pos ⟨Or.inl hc, he⟩, if_pos ⟨hc, he⟩, if_neg hng]
        simp only [bucketSum_cons]
        omega
      · rw [if_neg (by rintro ⟨-, h⟩; exact he h), if_neg (by rintro ⟨-, h⟩; exact he h),
          if_neg (by rintro ⟨-, h⟩; exact he h)]
        exact ih
    · by_cases hg : b.category = QuotaType.General
      · have hnc : ¬(b.category = category ∧ now < b.expiry) := by
          rintro ⟨h, -⟩; exact hc h
        by_cases he : now < b.expiry
        · rw [if_pos ⟨Or.inr hg, he⟩, if_neg hnc, if_pos ⟨hg, he⟩]
          simp only [bucketSum_cons]
          omega
        · rw [if_neg (by rintro ⟨-, h⟩; exact he h), if_neg (by rintro ⟨-, h⟩; exact he h),
            if_neg (by rintro ⟨-, h⟩; exact he h)]
          exact ih
      · rw [if_neg (by rintro ⟨h, -⟩; rcases h with h | h; exact hc h; exact hg h),
          if_neg (by rintro ⟨h, -⟩; exact hc h), if_neg (by rintro ⟨h, -⟩; exact hg h)]
        exact ih

/-- When the unexpired capacity of the priority classes cannot cover the
request, `consume_data` fails with `InsufficientBalance`. -/
theorem consume_insufficient (acct : UserAccount) (amount : Nat) (category : QuotaType)
    (now : Nat) (ha : acct.is_active = true)
    (h : eligibleCapacity category now acct.buckets < amount) :
    consume_data acct amount category now = .error TelcoError.InsufficientBalance := by
  unfold consume_data
  rw [if_neg (by simp [ha])]
  have hpos : 0 < (drainAll now (priorities category) acct.buckets amount).2 := by
    by_cases hc : category = QuotaType.General
    · subst hc
      rw [eligibleCapacity_general] at h
      simp only [priorities, if_pos rfl, drainAll]
      rw [drain_spec]
      omega
    · rw [eligibleCapacity_split category now hc acct.buckets] at h
      simp only [priorities, if_neg hc, drainAll]
      rw [drain_spec, eligSum_drain_other now category QuotaType.General (Ne.symm hc) _ _,
        drain_spec]
      omega
  rw [if_pos hpos]

/-- `parse_and_buy_topping` is the command-determined `parsedTopping` plus
the account update: the panic and `InvalidCommand` outcomes never depend
on the account, and acceptance appends exactly the parsed topping and
recomputes the balance. -/
theorem parse_decomp (acct : UserAccount) (cmd : String) (now : Nat) :
    parse_and_buy_topping acct cmd now =
      match parsedTopping cmd now with
      | .panicked => .panicked
      | .returns none => .returns (.error (.InvalidCommand "Try 'YouTube 2GB'"))
      | .returns (some t) => .returns (.ok { acct with
          buckets := acct.buckets ++ [t],
          data_balance_bytes := bucketSum (acct.buckets ++ [t]) }) := by
  unfold parse_and_buy_topping parsedTopping
  cases hm : findMatch cmd.data with
  | none => rfl
  | some tr =>
    obtain ⟨kwChars, ds, unit⟩ := tr
    simp only
    cases hp : parseU64 ds with
    | none => rfl
    | some amount =>
      simp only
      by_cases hb : (if unit = "GB" then amount * 1024 * 1024 * 1024
          else amount * 1024 * 1024) < 2 ^ 64
      · rw [if_pos hb, if_pos hb]
      · rw [if_neg hb, if_neg hb]

/-- An accepted topping's shape: category from the fixed set, a byte count
that fits `u64`, and the 30-day expiry. -/
theorem parsedTopping_some (cmd : String) (now : Nat) (t : QuotaBucket)
    (h : parsedTopping cmd now = .returns (some t)) :
    (t.category = QuotaType.General ∨ t.category = QuotaType.Social ∨
      t.category = QuotaType.Video) ∧
    t.remaining_bytes < 2 ^ 64 ∧ t.expiry = now + 86400 * 30 := by
  unfold parsedTopping at h
  cases hm : findMatch cmd.data with
  | none =>
    rw [hm] at h
    exact absurd h (by simp)
  | some tr =>
    obtain ⟨kwChars, ds, unit⟩ := tr
    rw [hm] at h
    simp only at h
    cases hp : parseU64 ds with
    | none =>
      rw [hp] at h
      exact absurd h (by simp)
    | some amount =>
      rw [hp] at h
      simp only at h
      by_cases hb : (if unit = "GB" then amount * 1024 * 1024 * 1024
          else amount * 1024 * 1024) < 2 ^ 64
      · rw [if_pos hb] at h
        simp only [Outcome.returns.injEq, Option.some.injEq] at h
        subst h
        refine ⟨?_, hb, rfl⟩
        by_cases h1 : String.mk (kwChars.map Char.toLower) = "youtube"
        · simp [h1]
        · by_cases h2 : String.mk (kwChars.map Char.toLower) = "social" <;> simp [h1, h2]
      · rw [if_neg hb] at h
        exact absurd h (by simp)

/-- A panic can only arise after the regex matched. -/
theorem parsedTopping_panicked_isSome (cmd : String) (now : Nat)
    (h : parsedTopping cmd now = .panicked) : (findMatch cmd.data).isSome = true := by
  unfold parsedTopping at h
  cases hm : findMatch cmd.data with
  | none =>
    rw [hm] at h
    exact absurd h (by simp)
  | some tr => rfl

/-! ## Claim theorems -/

/-- **C1.** Consumption is all-or-nothing: when `simulate_usage` succeeds the
entire requested amount has been deducted from the buckets, and when it
fails (`Locked`, `AccountInactive` or `InsufficientBalance`) the committed
account state is exactly the pre-call state — no partially-mutated account
is ever committed or returned. -/
theorem consume_atomicity (acct : UserAccount) (bytes : Nat) (category : QuotaType)
    (now : Nat) :
    (∀ new_state, simulate_usage_step acct bytes category now = (new_state, none) →
      bucketSum new_state.buckets + bytes = bucketSum acct.buckets) ∧
    (∀ st e, simulate_usage_step acct bytes category now = (st, some e) →
      st = acct ∧
        (e = TelcoError.Locked ∨ e = TelcoError.AccountInactive ∨
          e = TelcoError.InsufficientBalance)) := by
  constructor
  · intro new_state h
    unfold simulate_usage_step at h
    by_cases hl : acct.biometric_locked
    · rw [if_pos hl] at h
      simp at h
    · rw [if_neg hl] at h
      cases hc : consume_data acct bytes category now with
      | ok n =>
        rw [hc] at h
        simp only [Prod.mk.injEq] at h
        obtain ⟨hn, -⟩ := h
        obtain ⟨-, hr0, hnew⟩ := (consume_data_ok_iff acct bytes category now n).mp hc
        have hsum := drainAll_sum now (priorities category) acct.buckets bytes
        rw [← hn, hnew]
        simp only
        omega
      | error e =>
        rw [hc] at h
        simp at h
  · intro st e h
    unfold simulate_usage_step at h
    by_cases hl : acct.biometric_locked
    · rw [if_pos hl] at h
      simp only [Prod.mk.injEq, Option.some.injEq] at h
      exact ⟨h.1.symm, Or.inl h.2.symm⟩
    · rw [if_neg hl] at h
      cases hc : consume_data acct bytes category now with
      | ok n =>
        rw [hc] at h
        simp at h
      | error e' =>
        rw [hc] at h
        simp only [Prod.mk.injEq, Option.some.injEq] at h
        obtain ⟨h1, h2⟩ := h
        rcases consume_data_err acct bytes category now e' hc with h3 | h3
        · exact ⟨h1.symm, Or.inr (Or.inl (h2 ▸ h3 ▸ rfl))⟩
        · exact ⟨h1.symm, Or.inr (Or.inr (h2 ▸ h3 ▸ rfl))⟩

/-- Witness for C1: a successful consumption of 4 bytes from `acctA`
(10-byte General bucket) and a rejected consumption on the locked account
`acctL`. -/
theorem consume_atomicity_witness :
    (bucketSum (simulate_usage_step acctA 4 QuotaType.General 100).1.buckets + 4 =
      bucketSum acctA.buckets) ∧
    ((simulate_usage_step acctL 4 QuotaType.General 100).1 = acctL ∧
      (TelcoError.Locked = TelcoError.Locked ∨ TelcoError.Locked = TelcoError.AccountInactive ∨
        TelcoError.Locked = TelcoError.InsufficientBalance)) :=
  ⟨(consume_atomicity acctA 4 QuotaType.General 100).1
      (simulate_usage_step acctA 4 QuotaType.General 100).1 rfl,
    (consume_atomicity acctL 4 QuotaType.General 100).2
      (simulate_usage_step acctL 4 QuotaType.General 100).1 TelcoError.Locked rfl⟩

/-- **C2.** Invariant I1: after every successful consume and after every
allotment addition, the derived `data_balance_bytes` equals the sum of
`remaining_bytes` over all buckets (expired ones included — the sum ranges
over the whole bucket list). -/
theorem balance_invariant (acct : UserAccount) (amount : Nat) (category : QuotaType)
    (now : Nat) (cmd : String) :
    (∀ new, consume_data acct amount category now = .ok new →
      new.data_balance_bytes = bucketSum new.buckets) ∧
    (∀ new, parse_and_buy_topping acct cmd now = .returns (.ok new) →
      new.data_balance_bytes = bucketSum new.buckets) ∧
    (∀ s, (freshAccount s).data_balance_bytes = bucketSum (freshAccount s).buckets) ∧
    (∀ hr, (unlock_with_biometrics acct hr).1.buckets = acct.buckets ∧
      (unlock_with_biometrics acct hr).1.data_balance_bytes = acct.data_balance_bytes) := by
  refine ⟨?_, ?_, fun _ => rfl, fun _ => ⟨rfl, rfl⟩⟩
  · intro new h
    obtain ⟨-, -, hnew⟩ := (consume_data_ok_iff acct amount category now new).mp h
    rw [hnew]
  · intro new h
    rw [parse_decomp] at h
    cases hpt : parsedTopping cmd now with
    | panicked =>
      rw [hpt] at h
      exact absurd h (by simp)
    | returns o =>
      cases o with
      | none =>
        rw [hpt] at h
        exact absurd h (by simp)
      | some t =>
        rw [hpt] at h
        simp only [Outcome.returns.injEq, Except.ok.injEq] at h
        rw [← h]

/-- Witness for C2: both hypotheses discharged concretely — a successful
4-byte consume on `acctA` and a successful `"Social 1MB"` topping purchase
on a fresh account. -/
theorem balance_invariant_witness :
    ({ acctA with
        buckets := [{ name := "g", remaining_bytes := 6, category := QuotaType.General,
                      expiry := 1000 }],
        data_balance_bytes := 6 } : UserAccount).data_balance_bytes =
      bucketSum ({ acctA with
        buckets := [{ name := "g", remaining_bytes := 6, category := QuotaType.General,
                      expiry := 1000 }],
        data_balance_bytes := 6 } : UserAccount).buckets ∧
    ({ freshAccount "u" with
        buckets := [{ name := "1 MB Topping", remaining_bytes := 1048576,
                      category := QuotaType.Social, expiry := 2592100 }],
        data_balance_bytes := 1048576 } : UserAccount).data_balance_bytes =
      bucketSum ({ freshAccount "u" with
        buckets := [{ name := "1 MB Topping", remaining_bytes := 1048576,
                      category := QuotaType.Social, expiry := 2592100 }],
        data_balance_bytes := 1048576 } : UserAccount).buckets :=
  ⟨(balance_invariant acctA 4 QuotaType.General 100 "x").1 _ (by rfl),
    (balance_invariant (freshAccount "u") 0 QuotaType.General 100 "Social 1MB").2.1 _
      (by rfl)⟩

/-- **C3.** Priority order of a successful consume: buckets outside the
priority classes are untouched; a `General` request drains only `General`
buckets; for a non-`General` request, if any `General` bucket lost bytes
then every eligible bucket of the requested category was drained to
exactly zero first; and in total no more than the requested amount is ever
deducted (draining stops once the needed amount reaches zero). -/
theorem category_priority (acct : UserAccount) (amount : Nat) (category : QuotaType)
    (now : Nat) :
    ∀ new, consume_data acct amount category now = .ok new →
      List.Forall₂ (fun b b' => b.category ∉ priorities category → b' = b)
        acct.buckets new.buckets ∧
      (category = QuotaType.General →
        List.Forall₂ (fun b b' => b.category ≠ QuotaType.General → b' = b)
          acct.buckets new.buckets) ∧
      (category ≠ QuotaType.General →
        ¬ List.Forall₂ (fun b b' =>
            b.category = QuotaType.General → b'.remaining_bytes = b.remaining_bytes)
          acct.buckets new.buckets →
        List.Forall₂ (fun b b' =>
            b.category = category → now < b.expiry → b'.remaining_bytes = 0)
          acct.buckets new.buckets) ∧
      bucketSum acct.buckets ≤ bucketSum new.buckets + amount := by
  intro new h
  obtain ⟨-, hr0, hnew⟩ := (consume_data_ok_iff acct amount category now new).mp h
  have hbk : new.buckets = (drainAll now (priorities category) acct.buckets amount).1 := by
    rw [hnew]
  refine ⟨?_, ?_, ?_, ?_⟩
  · rw [hbk]
    refine (drainAll_forall2 now (priorities category) acct.buckets amount).imp ?_
    rintro a b ⟨-, -, -, -, hu⟩ hnot
    exact hu (by rintro ⟨hm, -⟩; exact hnot hm)
  · intro hg
    subst hg
    rw [hbk]
    refine (drainAll_forall2 now (priorities QuotaType.General) acct.buckets amount).imp ?_
    rintro a b ⟨-, -, -, -, hu⟩ hne
    refine hu ?_
    rintro ⟨hm, -⟩
    simp [priorities] at hm
    exact hne hm
  · intro hne htouched
    have hbk2 : new.buckets =
        (drain now QuotaType.General (drain now category acct.buckets amount).1
          (drain now category acct.buckets amount).2).1 := by
      rw [hbk]
      simp only [priorities, if_neg hne, drainAll]
    by_cases h0 : (drain now category acct.buckets amount).2 = 0
    · exfalso
      apply htouched
      rw [hbk2, h0, (drain_zero now QuotaType.General _).1]
      refine (drain_forall2 now category acct.buckets amount).imp ?_
      rintro a b ⟨-, -, -, -, hu⟩ hg
      have hb : b = a := by
        apply hu
        rintro ⟨hc, -⟩
        exact hne (by rw [← hc, hg])
      rw [hb]
    · have hpos : 0 < (drain now category acct.buckets amount).2 := Nat.pos_of_ne_zero h0
      have h1 := forall2_and (drain_forall2 now category acct.buckets amount)
        (drain_exhaust now category acct.buckets amount hpos)
      have h2 := drain_forall2 now QuotaType.General
        (drain now category acct.buckets amount).1 (drain now category acct.buckets amount).2
      rw [hbk2]
      refine forall2_comp ?_ h1 h2
      rintro a b c ⟨⟨-, hc1, -, -, -⟩, hz⟩ ⟨-, -, -, -, hu2⟩ hcat hexp
      have hb0 : b.remaining_bytes = 0 := hz hcat hexp
      have hcb : c = b := by
        apply hu2
        rintro ⟨hg, -⟩
        rw [hc1, hcat] at hg
        exact hne hg
      rw [hcb, hb0]
  · have hsum := drainAll_sum now (priorities category) acct.buckets amount
    have hle := drainAll_snd_le now (priorities category) acct.buckets amount
    rw [hbk]
    omega

/-- Witness for C3: consuming 15 bytes of Video from `acctP` (Video 10 +
General 10, both live) succeeds, drains the General bucket (so the
`¬ Forall₂` hypothesis holds) and leaves the Video bucket at zero; and a
General request on `acctA` touches only General buckets. -/
theorem category_priority_witness :
    List.Forall₂ (fun b b' =>
        b.category = QuotaType.Video → 100 < b.expiry → b'.remaining_bytes = 0)
      acctP.buckets
      ({ acctP with
          buckets := [{ name := "v", remaining_bytes := 0, category := QuotaType.Video,
                        expiry := 1000 },
                      { name := "g", remaining_bytes := 5, category := QuotaType.General,
                        expiry := 1000 }],
          data_balance_bytes := 5 } : UserAccount).buckets ∧
    List.Forall₂ (fun b b' => b.category ≠ QuotaType.General → b' = b)
      acctA.buckets
      ({ acctA with
          buckets := [{ name := "g", remaining_bytes := 6, category := QuotaType.General,
                        expiry := 1000 }],
          data_balance_bytes := 6 } : UserAccount).buckets :=
  ⟨((category_priority acctP 15 QuotaType.Video 100 _ (by rfl)).2.2.1
      (by decide)
      (fun hall => by
        have h2 := (List.forall₂_cons.mp (List.forall₂_cons.mp hall).2).1
        exact absurd (h2 rfl) (by decide))),
    (category_priority acctA 4 QuotaType.General 100 _ (by rfl)).2.1 rfl⟩

/-- **C4.** Expired buckets are inert: a successful consume returns every
bucket with `expiry ≤ now` byte-for-byte unchanged (still visible, bytes
intact), and when the unexpired capacity of the priority classes cannot
cover the request an active account fails with `InsufficientBalance`. -/
theorem expired_buckets_inert (acct : UserAccount) (amount : Nat) (category : QuotaType)
    (now : Nat) :
    (∀ new, consume_data acct amount category now = .ok new →
      List.Forall₂ (fun b b' => b.expiry ≤ now → b' = b) acct.buckets new.buckets) ∧
    (acct.is_active = true → eligibleCapacity category now acct.buckets < amount →
      consume_data acct amount category now = .error TelcoError.InsufficientBalance) := by
  constructor
  · intro new h
    obtain ⟨-, -, hnew⟩ := (consume_data_ok_iff acct amount category now new).mp h
    have hbk : new.buckets = (drainAll now (priorities category) acct.buckets amount).1 := by
      rw [hnew]
    rw [hbk]
    refine (drainAll_forall2 now (priorities category) acct.buckets amount).imp ?_
    rintro a b ⟨-, -, -, -, hu⟩ hexp
    exact hu (by rintro ⟨-, hlt⟩; omega)
  · intro ha hcap
    exact consume_insufficient acct amount category now ha hcap

/-- Witness for C4: `acctE`'s only Video bucket expired at 50 with 5 bytes
left; at `now = 100` a 3-byte Video request has zero eligible capacity and
fails with `InsufficientBalance`.  On `acctM` (expired Video + live
General) a 4-byte Video consume succeeds out of the General fallback and
returns the expired bucket untouched with its 5 bytes intact. -/
theorem expired_buckets_inert_witness :
    consume_data acctE 3 QuotaType.Video 100 = .error TelcoError.InsufficientBalance ∧
    List.Forall₂ (fun b b' => b.expiry ≤ 100 → b' = b)
      acctM.buckets
      ({ acctM with
          buckets := [{ name := "v", remaining_bytes := 5, category := QuotaType.Video,
                        expiry := 50 },
                      { name := "g", remaining_bytes := 6, category := QuotaType.General,
                        expiry := 1000 }],
          data_balance_bytes := 11 } : UserAccount).buckets :=
  ⟨(expired_buckets_inert acctE 3 QuotaType.Video 100).2 (by rfl) (by decide),
    (expired_buckets_inert acctM 4 QuotaType.Video 100).1 _ (by rfl)⟩

/-- **C5 counterexample.** The claim that only positive byte amounts are
accepted is false: the regex `(\d+)` matches `"0"`, `parse::<u64>` accepts
it, so the command `"YouTube 0GB"` is accepted and commits a zero-byte
Video bucket instead of being rejected. -/
theorem addAllotment_zero_accepted :
    parse_and_buy_topping (freshAccount "u0") "YouTube 0GB" 100 =
      .returns (.ok { freshAccount "u0" with
        buckets := [{ name := "0 GB Topping", remaining_bytes := 0,
                      category := QuotaType.Video, expiry := 2592100 }],
        data_balance_bytes := 0 }) := by
  rfl

/-- **C5 (amended).** `parse_and_buy_topping` rejects every command the
regex does not match with `InvalidCommand` before any mutation, and the
category of an accepted topping is one of the fixed set; but there is no
positive-amount validation — a zero amount is accepted — and a regex-
matching command whose amount capture `parse::<u64>` rejects (above
`u64::MAX`, or written with non-ASCII Unicode digits) is not rejected
either: it panics past validation, which only regex-matching commands can
reach. -/
theorem addAllotment_validation (acct : UserAccount) (cmd : String) (now : Nat) :
    (∀ e, parse_and_buy_topping acct cmd now = .returns (.error e) →
      e = TelcoError.InvalidCommand "Try 'YouTube 2GB'") ∧
    (parse_and_buy_topping acct cmd now = .panicked →
      (findMatch cmd.data).isSome = true ∧
      ∀ acct' : UserAccount, parse_and_buy_topping acct' cmd now = .panicked) ∧
    (∀ new, parse_and_buy_topping acct cmd now = .returns (.ok new) →
      ∃ topping : QuotaBucket,
        new.buckets = acct.buckets ++ [topping] ∧
        (topping.category = QuotaType.General ∨ topping.category = QuotaType.Social ∨
          topping.category = QuotaType.Video) ∧
        topping.remaining_bytes < 2 ^ 64 ∧
        topping.expiry = now + 86400 * 30 ∧
        new.data_balance_bytes = bucketSum new.buckets ∧
        new.id = acct.id ∧ new.is_active = acct.is_active ∧
        new.biometric_locked = acct.biometric_locked) := by
  refine ⟨?_, ?_, ?_⟩
  · intro e h
    rw [parse_decomp] at h
    cases hpt : parsedTopping cmd now with
    | panicked =>
      rw [hpt] at h
      exact absurd h (by simp)
    | returns o =>
      cases o with
      | none =>
        rw [hpt] at h
        simp only [Outcome.returns.injEq, Except.error.injEq] at h
        exact h.symm
      | some t =>
        rw [hpt] at h
        exact absurd h (by simp)
  · intro h
    rw [parse_decomp] at h
    cases hpt : parsedTopping cmd now with
    | panicked =>
      refine ⟨parsedTopping_panicked_isSome cmd now hpt, ?_⟩
      intro acct'
      rw [parse_decomp, hpt]
    | returns o =>
      cases o with
      | none =>
        rw [hpt] at h
        exact absurd h (by simp)
      | some t =>
        rw [hpt] at h
        exact absurd h (by simp)
  · intro new h
    rw [parse_decomp] at h
    cases hpt : parsedTopping cmd now with
    | panicked =>
      rw [hpt] at h
      exact absurd h (by simp)
    | returns o =>
      cases o with
      | none =>
        rw [hpt] at h
        exact absurd h (by simp)
      | some t =>
        rw [hpt] at h
        simp only [Outcome.returns.injEq, Except.ok.injEq] at h
        obtain ⟨hcat, hlt, hexp⟩ := parsedTopping_some cmd now t hpt
        subst h
        exact ⟨t, rfl, hcat, hlt, hexp, rfl, rfl, rfl, rfl⟩

/-- Witness for C5 (amended): `"status"` is rejected with exactly the
`InvalidCommand` message; `"Social 99999999999999999999GB"` (above
`u64::MAX`) matches the regex and panics on every account; and the
accepted `"YouTube 2GB"` on a fresh account yields a state satisfying the
balance invariant. -/
theorem addAllotment_validation_witness :
    (TelcoError.InvalidCommand "Try 'YouTube 2GB'" =
      TelcoError.InvalidCommand "Try 'YouTube 2GB'") ∧
    (findMatch "Social 99999999999999999999GB".data).isSome = true ∧
    parse_and_buy_topping acctL "Social 99999999999999999999GB" 100 =
      Outcome.panicked ∧
    ({ freshAccount "w" with
        buckets := [{ name := "2 GB Topping", remaining_bytes := 2147483648,
                      category := QuotaType.Video, expiry := 2592100 }],
        data_balance_bytes := 2147483648 } : UserAccount).data_balance_bytes =
      bucketSum ({ freshAccount "w" with
        buckets := [{ name := "2 GB Topping", remaining_bytes := 2147483648,
                      category := QuotaType.Video, expiry := 2592100 }],
        data_balance_bytes := 2147483648 } : UserAccount).buckets := by
  refine ⟨(addAllotment_validation acctA "status" 100).1 _ (by rfl),
    ((addAllotment_validation acctA "Social 99999999999999999999GB" 100).2.1 (by rfl)).1,
    ((addAllotment_validation acctA "Social 99999999999999999999GB" 100).2.1
      (by rfl)).2 acctL,
    ?_⟩
  obtain ⟨t, -, -, -, -, hbal, -, -, -⟩ :=
    (addAllotment_validation (freshAccount "w") "YouTube 2GB" 100).2.2 _ (by rfl)
  exact hbal

/-- **C6.** The history query returns at most `limit` records, ordered by
timestamp descending, and an empty or missing persistence backend yields
empty results rather than an error. -/
theorem usage_history_query (backend : Option (List UsageRecord)) (limit : Nat) :
    (∃ records, get_historical_usage backend limit = .ok records ∧
      records.length ≤ limit ∧ records.Sorted tsDesc) ∧
    get_historical_usage none limit = .ok [] ∧
    get_historical_usage (some []) limit = .ok [] := by
  refine ⟨?_, rfl, by simp [get_historical_usage, List.insertionSort]⟩
  cases backend with
  | none => exact ⟨[], rfl, by simp, List.sorted_nil⟩
  | some history =>
    refine ⟨(List.insertionSort tsDesc history).take limit, rfl, ?_, ?_⟩
    · exact List.length_take_le limit (List.insertionSort tsDesc history)
    · exact List.Pairwise.sublist (List.take_sublist _ _)
        (List.sorted_insertionSort tsDesc history)

/-- **C7.** Per-bucket deduction is exactly `min(bucket.remaining_bytes,
amount still needed)`, so the subtraction cannot underflow: on a
successful consume every bucket's remaining bytes only shrink, never wrap
to a larger value. -/
theorem deduction_capped :
    (∀ (now : Nat) (p : QuotaType) (bucket : QuotaBucket) (rest : List QuotaBucket)
        (r : Nat),
      (drain now p (bucket :: rest) r).1.head? = some (
        if bucket.category = p ∧ now < bucket.expiry then
          { bucket with
            remaining_bytes := bucket.remaining_bytes - min bucket.remaining_bytes r }
        else bucket)) ∧
    (∀ (acct : UserAccount) (amount : Nat) (category : QuotaType) (now : Nat) new,
      consume_data acct amount category now = .ok new →
      List.Forall₂ (fun b b' => b'.remaining_bytes ≤ b.remaining_bytes)
        acct.buckets new.buckets) := by
  constructor
  · intro now p bucket rest r
    by_cases h : bucket.category = p ∧ now < bucket.expiry
    · simp only [drain, if_pos h, List.head?]
    · simp only [drain, if_neg h, List.head?]
  · intro acct amount category now new h
    obtain ⟨-, -, hnew⟩ := (consume_data_ok_iff acct amount category now new).mp h
    have hbk : new.buckets = (drainAll now (priorities category) acct.buckets amount).1 := by
      rw [hnew]
    rw [hbk]
    refine (drainAll_forall2 now (priorities category) acct.buckets amount).imp ?_
    rintro a b ⟨-, -, -, hr, -⟩
    exact hr

/-- Witness for C7: the capped head-deduction at a concrete bucket, and the
pointwise monotonicity for the successful 15-byte Video consume on
`acctP`. -/
theorem deduction_capped_witness :
    ((drain 100 QuotaType.General [bktG] 4).1.head? = some (
      if bktG.category = QuotaType.General ∧ 100 < bktG.expiry then
        { bktG with remaining_bytes := bktG.remaining_bytes - min bktG.remaining_bytes 4 }
      else bktG)) ∧
    List.Forall₂ (fun b b' => b'.remaining_bytes ≤ b.remaining_bytes) acctP.buckets
      ({ acctP with
          buckets := [{ name := "v", remaining_bytes := 0, category := QuotaType.Video,
                        expiry := 1000 },
                      { name := "g", remaining_bytes := 5, category := QuotaType.General,
                        expiry := 1000 }],
          data_balance_bytes := 5 } : UserAccount).buckets :=
  ⟨deduction_capped.1 100 QuotaType.General bktG [] 4,
    deduction_capped.2 acctP 15 QuotaType.Video 100 _ (by rfl)⟩

/-- **C8.** While `is_active` is false, `consume_data` fails with
`AccountInactive`, yet allotment additions still succeed and take effect
(one bucket appended on a valid command, otherwise only `InvalidCommand`)
and unlock still clears the lock: activity and lock are independent gates,
deactivation blocks only consumption. -/
theorem inactive_gate_independent (acct : UserAccount) (amount : Nat)
    (category : QuotaType) (now : Nat) (cmd : String) (hr : Bool)
    (h : acct.is_active = false) :
    consume_data acct amount category now = .error TelcoError.AccountInactive ∧
    (unlock_with_biometrics acct hr).1 = { acct with biometric_locked := false } ∧
    (match parse_and_buy_topping acct cmd now with
      | .returns (.ok new) => new.buckets.length = acct.buckets.length + 1 ∧
          new.is_active = acct.is_active
      | .returns (.error e) => e = TelcoError.InvalidCommand "Try 'YouTube 2GB'"
      | .panicked => ∀ acct' : UserAccount,
          parse_and_buy_topping acct' cmd now = .panicked) := by
  refine ⟨?_, rfl, ?_⟩
  · unfold consume_data
    rw [if_pos h]
  · rw [parse_decomp]
    cases hpt : parsedTopping cmd now with
    | panicked =>
      simp only
      intro acct'
      rw [parse_decomp, hpt]
    | returns o =>
      cases o with
      | none => simp
      | some t => exact ⟨by simp, rfl⟩

/-- Witness for C8: the inactive account `acctI` rejects a 1-byte General
consume while a `"Social 1MB"` topping still goes through. -/
theorem inactive_gate_independent_witness :
    consume_data acctI 1 QuotaType.General 100 = .error TelcoError.AccountInactive ∧
    (unlock_with_biometrics acctI true).1 = { acctI with biometric_locked := false } ∧
    (match parse_and_buy_topping acctI "Social 1MB" 100 with
      | .returns (.ok new) => new.buckets.length = acctI.buckets.length + 1 ∧
          new.is_active = acctI.is_active
      | .returns (.error e) => e = TelcoError.InvalidCommand "Try 'YouTube 2GB'"
      | .panicked => ∀ acct' : UserAccount,
          parse_and_buy_topping acct' "Social 1MB" 100 = .panicked) :=
  inactive_gate_independent acctI 1 QuotaType.General 100 "Social 1MB" true rfl

/-- **C9.** `unlock_with_biometrics` always succeeds and clears the locked
flag unconditionally; it is idempotent — on an already-unlocked account
the committed state is observably identical — and with a registered
handler each call still emits exactly one notification and one
persistence enqueue. -/
theorem unlock_idempotent (acct : UserAccount) (hr : Bool) :
    (unlock_with_biometrics acct hr).1.biometric_locked = false ∧
    (acct.biometric_locked = false → (unlock_with_biometrics acct hr).1 = acct) ∧
    (unlock_with_biometrics (unlock_with_biometrics acct hr).1 hr).1 =
      (unlock_with_biometrics acct hr).1 ∧
    (hr = true → (unlock_with_biometrics acct hr).2 =
      [Event.notified (unlock_with_biometrics acct hr).1,
        Event.persistEnqueued (unlock_with_biometrics acct hr).1]) := by
  refine ⟨rfl, ?_, rfl, ?_⟩
  · intro h
    cases acct
    simp_all [unlock_with_biometrics]
  · intro h
    subst h
    rfl

/-- Witness for C9: unlocking the already-unlocked `acctA` with a handler
registered leaves the account unchanged and notifies exactly once. -/
theorem unlock_idempotent_witness :
    (unlock_with_biometrics acctA true).1 = acctA ∧
    (unlock_with_biometrics acctA true).2 =
      [Event.notified (unlock_with_biometrics acctA true).1,
        Event.persistEnqueued (unlock_with_biometrics acctA true).1] :=
  ⟨(unlock_idempotent acctA true).2.1 rfl, (unlock_idempotent acctA true).2.2.2 rfl⟩

/-- **C10.** Registering an observer is not gated by the lock: on a
biometric-locked account `set_update_handler` still immediately delivers
the full current snapshot to the new observer, while `get_account_info`
returns `Locked` in the very same state. -/
theorem register_observer_ignores_lock (acct : UserAccount)
    (h : acct.biometric_locked = true) :
    (set_update_handler acct).2 = [Event.notified acct] ∧
    (set_update_handler acct).1 = true ∧
    get_account_info acct = .error TelcoError.Locked := by
  refine ⟨rfl, rfl, ?_⟩
  unfold get_account_info
  simp [h]

/-- Witness for C10: the locked account `acctL`. -/
theorem register_observer_ignores_lock_witness :
    (set_update_handler acctL).2 = [Event.notified acctL] ∧
    (set_update_handler acctL).1 = true ∧
    get_account_info acctL = .error TelcoError.Locked :=
  register_observer_ignores_lock acctL rfl

end Telco
